import Mathlib

/-!
Shallow embedding of the MaaltijdPlus access-control and rate-limiting code.

Timestamps are modelled as `Int` milliseconds (JS `Date.now()`).  Keyed stores
(the JS `Map` objects used by the two rate limiters and the browser
`localStorage` used by the access gate) are modelled as association lists with
first-match lookup; `alistSet` replaces an existing binding in place and
appends a new one, matching `Map.set` / `localStorage.setItem`.  External
services (Firestore, the identity provider, the AI endpoint) are modelled as
oracle parameters whose outcomes (`Except`) the embedded code branches on,
exactly where the source awaits them inside `try`/`catch`.
-/

namespace MaaltijdPlus

/-- One record of an in-memory rate-limit map: `{ count, timestamp }`. -/
structure RateRecord where
  count : Nat
  timestamp : Int
deriving DecidableEq

def alistGet {α : Type} : List (String × α) → String → Option α
  | [], _ => none
  | (k, v) :: rest, key => if k = key then some v else alistGet rest key

def alistSet {α : Type} : List (String × α) → String → α → List (String × α)
  | [], key, v => [(key, v)]
  | (k, w) :: rest, key, v =>
      if k = key then (key, v) :: rest else (k, w) :: alistSet rest key v

def alistRemove {α : Type} : List (String × α) → String → List (String × α)
  | [], _ => []
  | (k, w) :: rest, key =>
      if k = key then alistRemove rest key else (k, w) :: alistRemove rest key

/-- The `rateLimit` / `analysisRateLimit` maps: key → `{count, timestamp}`. -/
abbrev RateTable : Type := List (String × RateRecord)

/-- Middleware window: `10 * 60 * 1000` ms (src/unnamed/part_002 line 31). -/
def mwWindowMs : Int := 10 * 60 * 1000

/-- Middleware max: `100` requests per window (src/unnamed/part_002 line 32). -/
def mwMaxRequests : Nat := 100

/-- Cleanup block of src/unnamed/part_002 lines 46-54: when the map holds more
than 1000 entries, delete every entry whose `timestamp` is older than
`now - windowMs`. -/
def mwSweep (t : RateTable) (now : Int) : RateTable :=
  if 1000 < t.length then
    t.filter (fun e => !decide (e.2.timestamp < now - mwWindowMs))
  else t

/-- Rate-limiting section of `proxy` (src/unnamed/part_002 lines 30-56): reset
to `{count 1, timestamp now}` on a missing or expired record, otherwise
increment and deny (429, before the sweep) once the count exceeds the max;
the cleanup sweep runs only on the fall-through (allowed) path. -/
def mwRateStep (t : RateTable) (ip : String) (now : Int) : RateTable × Bool :=
  match alistGet t ip with
  | none => (mwSweep (alistSet t ip ⟨1, now⟩) now, true)
  | some cur =>
    if mwWindowMs < now - cur.timestamp then
      (mwSweep (alistSet t ip ⟨1, now⟩) now, true)
    else
      let t1 := alistSet t ip ⟨cur.count + 1, cur.timestamp⟩
      if mwMaxRequests < cur.count + 1 then (t1, false)
      else (mwSweep t1 now, true)

/-- Char-list test: does the second list start with the first one. -/
def matchAt : List Char → List Char → Bool
  | [], _ => true
  | _ :: _, [] => false
  | a :: as, b :: bs => a = b && matchAt as bs

/-- Char-list test: does `sub` occur contiguously inside `hay`. -/
def occursIn (sub hay : List Char) : Bool :=
  match hay with
  | [] => matchAt sub []
  | _ :: rest => matchAt sub hay || occursIn sub rest

/-- JS `String.prototype.includes`. -/
def strIncludes (hay sub : String) : Bool := occursIn sub.toList hay.toList

/-- Bot user-agent fragments (src/unnamed/part_002 lines 8-11). -/
def BOT_AGENTS : List String :=
  ["bot", "spider", "crawl", "headless", "puppeteer", "selenium",
   "python-requests", "node-fetch", "axios", "curl", "wget"]

inductive ProxyResponse where
  | next
  | denied403
  | denied429
deriving DecidableEq

/-- The middleware `proxy` (src/unnamed/part_002 lines 13-57): favicon
passthrough, bot blocking (with a googlebot allowance), then the rate-limit
step. -/
def proxy (t : RateTable) (pathname userAgentRaw ip : String) (now : Int) :
    RateTable × ProxyResponse :=
  if pathname = "/favicon.ico" then (t, .next)
  else
    let userAgent := userAgentRaw.toLower
    let isBot := BOT_AGENTS.any (fun b => strIncludes userAgent b)
    if isBot && !(strIncludes userAgent "googlebot") then (t, .denied403)
    else
      let r := mwRateStep t ip now
      if r.2 then (r.1, .next) else (r.1, .denied429)

/-- AI-analysis window: `60 * 60 * 1000` ms (src/app/actions.ts line 19). -/
def anWindowMs : Int := 60 * 60 * 1000

/-- AI-analysis max: `20` analyses per hour (src/app/actions.ts line 20). -/
def anMaxRequests : Nat := 20

/-- Rate-limiting section of `analyzeMeal` (src/app/actions.ts lines 22-30):
on an in-window record, throw (table untouched) if `count >= maxRequests`,
otherwise increment; on a missing or out-of-window record, reset to
`{count 1, timestamp now}`.  There is no cleanup sweep in this limiter. -/
def anRateStep (t : RateTable) (ip : String) (now : Int) : RateTable × Bool :=
  match alistGet t ip with
  | some cur =>
    if now - cur.timestamp < anWindowMs then
      if anMaxRequests ≤ cur.count then (t, false)
      else (alistSet t ip ⟨cur.count + 1, cur.timestamp⟩, true)
    else (alistSet t ip ⟨1, now⟩, true)
  | none => (alistSet t ip ⟨1, now⟩, true)

/-- Fold a sequence of request times for one key through the middleware
limiter, collecting the allowed/denied verdicts. -/
def mwRun (ip : String) (times : List Int) (t : RateTable) :
    RateTable × List Bool :=
  match times with
  | [] => (t, [])
  | now :: rest =>
    let r := mwRateStep t ip now
    let rr := mwRun ip rest r.1
    (rr.1, r.2 :: rr.2)

/-- Fold a sequence of request times for one key through the AI-analysis
limiter, collecting the allowed/denied verdicts. -/
def anRun (ip : String) (times : List Int) (t : RateTable) :
    RateTable × List Bool :=
  match times with
  | [] => (t, [])
  | now :: rest =>
    let r := anRateStep t ip now
    let rr := anRun ip rest r.1
    (rr.1, r.2 :: rr.2)

inductive MealError where
  | rateLimited
  | noApiKey
  | invalidInput
  | imageTooLarge
  | aiFailure
deriving DecidableEq

/-- The server action `analyzeMeal` (src/app/actions.ts lines 12-109): the
rate-limit record is created/incremented first (lines 22-30, embedded as
`anRateStep`), then the API-key, missing-input and payload-size validations
run (lines 32-44), then the external AI call; the call plus the empty-text
check, code-fence stripping, JSON parse and error translation of lines 46-108
are collapsed into the `ai : Except Unit String` oracle, none of which touches
the rate table. -/
def analyzeMeal (t : RateTable) (ip : String) (now : Int) (apiKeySet : Bool)
    (imageBase64 mimeType : String) (ai : Except Unit String) :
    RateTable × Except MealError String :=
  let step := anRateStep t ip now
  if step.2 = false then (step.1, .error .rateLimited)
  else if !apiKeySet then (step.1, .error .noApiKey)
  else if imageBase64 = "" || mimeType = "" then (step.1, .error .invalidInput)
  else if 15 * 1024 * 1024 < imageBase64.length then
    (step.1, .error .imageTooLarge)
  else
    match ai with
    | .error _ => (step.1, .error .aiFailure)
    | .ok text => (step.1, .ok text)

/-- The authenticated identity handed to `checkAccess`; only the (nullable)
email is consulted.  JS treats the empty string as falsy, so `some ""` takes
the same throw path as `none`. -/
structure Identity where
  email : Option String
deriving DecidableEq

/-- The browser `localStorage`: string keys to string values. -/
abbrev LocalStorage : Type := List (String × String)

/-- One remote Firestore lookup against the `users_whitelist` collection:
either a direct `getDoc` with the email as record id, or an equality-filter
`query` on the `email` field. -/
inductive RemoteCall where
  | docGet (email : String)
  | queryEmail (email : String)
deriving DecidableEq

/-- Is this remote call the equality-filter query. -/
def RemoteCall.isQueryCall : RemoteCall → Bool
  | .docGet _ => false
  | .queryEmail _ => true

/-- The remote whitelist store: `docExists` is `getDoc(doc(db,
"users_whitelist", email)).exists()`, `queryNonempty` is `!(await
getDocs(query(..., where("email", "==", email)))).empty`; each call may
throw. -/
structure Db where
  docExists : String → Except Unit Bool
  queryNonempty : String → Except Unit Bool

/-- Observable outcome of one `checkAccess` run: the final `setUser` value,
the final `localStorage`, whether `signOut(auth)` was awaited, and the
ordered trace of remote whitelist calls. -/
structure AccessResult where
  user : Option Identity
  store : LocalStorage
  signedOut : Bool
  remoteCalls : List RemoteCall
deriving DecidableEq

/-- Cache validity period: 30 days in ms (src/unnamed/part_004 line 63). -/
def cacheValidMs : Int := 30 * 24 * 60 * 60 * 1000

/-- Value of a decimal-digit string, most significant first. -/
def digitsVal (acc : Nat) : List Char → Option Nat
  | [] => some acc
  | c :: cs =>
    if c.isDigit then digitsVal (acc * 10 + (c.toNat - 48)) cs else none

/-- JS `Number(s)` restricted to optional-sign integer strings — the only
shape the code ever stores (`Date.now().toString()`); any other nonempty
string yields `NaN` in JS, whose comparisons are all false, modelled here as
`none`. -/
def parseNumber (s : String) : Option Int :=
  match s.toList with
  | [] => none
  | ch :: rest =>
    if ch = '-' then
      match rest with
      | [] => none
      | _ => (digitsVal 0 rest).map (fun n => -(n : Int))
    else (digitsVal 0 (ch :: rest)).map (fun n => (n : Int))

/-- The `isCacheValid` test of src/unnamed/part_004 line 63:
`cacheTimestamp && (Date.now() - Number(cacheTimestamp) < 30*24*60*60*1000)`.
A missing or empty value is falsy; a non-numeric string gives `NaN`, whose
comparison is false (`parseNumber` returns `none`). -/
def tsValid (cts : Option String) (now : Int) : Bool :=
  match cts with
  | none => false
  | some s =>
    if s = "" then false
    else
      match parseNumber s with
      | some n => decide (now - n < cacheValidMs)
      | none => false

/-- Cache write on grant (src/unnamed/part_004 lines 73-74 / 87-88 / 96-97):
`access_<email> := "true"` and `access_ts_<email> := Date.now().toString()`. -/
def cacheWrite (s : LocalStorage) (email : String) (now : Int) : LocalStorage :=
  alistSet (alistSet s ("access_" ++ email) "true")
    ("access_ts_" ++ email) (toString now)

/-- Cache clear on whitelist denial (src/unnamed/part_004 lines 101-102). -/
def cacheClear (s : LocalStorage) (email : String) : LocalStorage :=
  alistRemove (alistRemove s ("access_" ++ email)) ("access_ts_" ++ email)

/-- `checkAccess` of src/unnamed/part_004 lines 55-122.  Order: missing/empty
email throws (outer catch: sign out, user null); then the localStorage cache;
then the hardcoded allow-list (a configuration constant, taken as the
`allowList` parameter; the source initialises it empty); then the remote
lookups — direct `getDoc` by record id FIRST (lines 81-83), the
equality-filter query only when the doc is absent (lines 90-92).  A throwing
remote call hits the inner catch (lines 106-113): sign out, user null, cache
untouched.  A double miss (lines 98-104) signs out, clears both cache keys
and sets user null. -/
def checkAccessP4 (u : Identity) (allowList : List String)
    (store : LocalStorage) (now : Int) (db : Db) : AccessResult :=
  match u.email with
  | none => ⟨none, store, true, []⟩
  | some email =>
    if email = "" then ⟨none, store, true, []⟩
    else
      let cached := alistGet store ("access_" ++ email)
      let valid := tsValid (alistGet store ("access_ts_" ++ email)) now
      if cached = some "true" && valid then ⟨some u, store, false, []⟩
      else if allowList.contains email then
        ⟨some u, cacheWrite store email now, false, []⟩
      else
        match db.docExists email with
        | .error _ => ⟨none, store, true, [.docGet email]⟩
        | .ok true => ⟨some u, cacheWrite store email now, false, [.docGet email]⟩
        | .ok false =>
          match db.queryNonempty email with
          | .error _ => ⟨none, store, true, [.docGet email, .queryEmail email]⟩
          | .ok true =>
            ⟨some u, cacheWrite store email now, false,
              [.docGet email, .queryEmail email]⟩
          | .ok false =>
            ⟨none, cacheClear store email, true,
              [.docGet email, .queryEmail email]⟩

/-- `checkAccess` of src/context/AuthContext.tsx lines 55-112.  No
localStorage cache is consulted or written (the `store` parameter passes
through untouched — this variant never touches localStorage); after the
hardcoded list, the equality-filter query runs FIRST (lines 77-78) and the
direct `getDoc` by record id only when the query is empty (lines 84-86).  A
throwing remote call hits the inner catch (lines 98-103): sign out, user
null.  A double miss (lines 92-95) signs out and sets user null. -/
def checkAccessCtx (u : Identity) (allowList : List String)
    (store : LocalStorage) (db : Db) : AccessResult :=
  match u.email with
  | none => ⟨none, store, true, []⟩
  | some email =>
    if email = "" then ⟨none, store, true, []⟩
    else if allowList.contains email then ⟨some u, store, false, []⟩
    else
      match db.queryNonempty email with
      | .error _ => ⟨none, store, true, [.queryEmail email]⟩
      | .ok true => ⟨some u, store, false, [.queryEmail email]⟩
      | .ok false =>
        match db.docExists email with
        | .error _ => ⟨none, store, true, [.queryEmail email, .docGet email]⟩
        | .ok true =>
          ⟨some u, store, false, [.queryEmail email, .docGet email]⟩
        | .ok false =>
          ⟨none, store, true, [.queryEmail email, .docGet email]⟩

/-- A Firebase auth error: only the `code` string matters to the embedded
branches (`getErrorCode` returns `undefined` for a non-string code). -/
structure AuthErr where
  code : Option String
deriving DecidableEq

/-- Popup error codes the part_005 orchestrator recognises as benign
(src/unnamed/part_005 lines 326-328). -/
def recognizedPopupCodes : List String :=
  ["auth/popup-blocked", "auth/popup-closed-by-user",
   "auth/cancelled-popup-request"]

/-- Environment/oracle for one `signInWithGoogle` run of
src/context/AuthContext.tsx: device heuristics plus the outcomes of the
awaited provider calls. -/
structure CtxSignInEnv where
  isStandalone : Bool
  isIOS : Bool
  isMobile : Bool
  persistOutcome : Except AuthErr Unit
  redirectOutcome : Except AuthErr Unit
  popupOutcome : Except AuthErr Unit

/-- Observable outcome of one `signInWithGoogle` run: whether
`signInWithRedirect` / `signInWithPopup` were awaited, whether the
`auth_redirect_pending` marker was written, and the error surfaced via
`toast.error` (none when no toast fired). -/
structure SignInResult where
  usedPopup : Bool
  usedRedirect : Bool
  pendingSet : Bool
  toast : Option AuthErr
deriving DecidableEq

/-- `signInWithGoogle` of src/context/AuthContext.tsx lines 176-204: set
persistence, then redirect for standalone/iOS/mobile and popup otherwise.
There is NO popup fallback: any thrown error — popup-blocked included —
reaches the single catch (lines 197-203) and surfaces a toast. -/
def signInWithGoogleCtx (env : CtxSignInEnv) : SignInResult :=
  match env.persistOutcome with
  | .error e => ⟨false, false, false, some e⟩
  | .ok _ =>
    if env.isStandalone || env.isIOS || env.isMobile then
      match env.redirectOutcome with
      | .ok _ => ⟨false, true, false, none⟩
      | .error e => ⟨false, true, false, some e⟩
    else
      match env.popupOutcome with
      | .ok _ => ⟨true, false, false, none⟩
      | .error e => ⟨true, false, false, some e⟩

/-- Environment/oracle for one `signInWithGoogle` run of
src/unnamed/part_005: device heuristics plus the outcomes of the awaited
provider calls (persistence selection per lines 278-288: indexedDB with an
inMemory fallback on mobile Safari, local otherwise). -/
structure P5SignInEnv where
  isMobileSafari : Bool
  isAndroid : Bool
  persistIndexedDB : Except AuthErr Unit
  persistInMemory : Except AuthErr Unit
  persistLocal : Except AuthErr Unit
  popupOutcome : Except AuthErr Unit
  redirectOutcome : Except AuthErr Unit

/-- Persistence phase of src/unnamed/part_005 lines 278-288: on mobile Safari
try indexedDB, falling back to inMemory (whose own failure escapes to the
outer catch); otherwise local persistence. -/
def p5Persist (env : P5SignInEnv) : Except AuthErr Unit :=
  if env.isMobileSafari then
    match env.persistIndexedDB with
    | .ok _ => .ok ()
    | .error _ => env.persistInMemory
  else env.persistLocal

/-- `signInWithGoogle` of src/unnamed/part_005 lines 262-344: mobile goes
straight to redirect (writing the `auth_redirect_pending` marker first);
desktop tries the popup and, when it throws with a recognised benign code
(popup-blocked, popup-closed-by-user, cancelled-popup-request), writes the
pending marker and falls back to `signInWithRedirect` — no toast on that
path.  An unrecognised popup error is rethrown to the outer catch (lines
337-343) and surfaces a toast, as does a failure of the fallback redirect or
of persistence. -/
def signInWithGoogleP5 (env : P5SignInEnv) : SignInResult :=
  match p5Persist env with
  | .error e => ⟨false, false, false, some e⟩
  | .ok _ =>
    if env.isMobileSafari || env.isAndroid then
      match env.redirectOutcome with
      | .ok _ => ⟨false, true, true, none⟩
      | .error e => ⟨false, true, true, some e⟩
    else
      match env.popupOutcome with
      | .ok _ => ⟨true, false, false, none⟩
      | .error e =>
        let recognized :=
          match e.code with
          | some c => recognizedPopupCodes.contains c
          | none => false
        if recognized then
          match env.redirectOutcome with
          | .ok _ => ⟨true, true, true, none⟩
          | .error e2 => ⟨true, true, true, some e2⟩
        else ⟨true, false, false, some e⟩

/-- Outcome of the `handleSubmit` gate of src/components/ThemeToggle.tsx
lines 160-201: blocked for a missing user/photo, blocked by the monthly
limit, blocked by the empty-title validation, or allowed to proceed to the
upload. -/
inductive SubmitOutcome where
  | noPhoto
  | limitReached
  | noTitle
  | proceed
deriving DecidableEq

/-- JS `String.prototype.trim`: strip whitespace from both ends. -/
def jsTrim (s : String) : String :=
  String.mk
    (((s.toList.dropWhile Char.isWhitespace).reverse.dropWhile
      Char.isWhitespace).reverse)

/-- `title.trim().substring(0, 100)` of src/components/ThemeToggle.tsx
line 193. -/
def cleanTitle (title : String) : String :=
  String.mk ((jsTrim title).toList.take 100)

/-- Monthly-upload-limit gate of `handleSubmit` (src/components/ThemeToggle.tsx
lines 160-201): missing user or photo rejects first; then the month-count
query runs inside `try`/`catch` — a successfully retrieved count of 100 or
more blocks, while a throwing query is swallowed by the catch (lines 187-190,
"Fail open") and the submission proceeds to the title validation
(`cleanTitle` must be nonempty). -/
def handleSubmitGate (hasUser hasImage : Bool)
    (countResult : Except Unit Nat) (title : String) : SubmitOutcome :=
  if !hasUser || !hasImage then .noPhoto
  else
    let blocked :=
      match countResult with
      | .ok n => decide (100 ≤ n)
      | .error _ => false
    if blocked then .limitReached
    else if cleanTitle title = "" then .noTitle
    else .proceed

/-- Whitelist store in which no email is found by either lookup. -/
def dbMissAll : Db := ⟨fun _ => .ok false, fun _ => .ok false⟩

/-- Whitelist store in which every email is present as a record id (direct
`getDoc` finds it) but the equality-filter query is empty. -/
def dbKeyOnly : Db := ⟨fun _ => .ok true, fun _ => .ok false⟩

/-- Whitelist store in which the equality-filter query finds every email but
no record uses the email as its id. -/
def dbQueryOnly : Db := ⟨fun _ => .ok false, fun _ => .ok true⟩

/-- Whitelist store whose every lookup throws. -/
def dbThrows : Db := ⟨fun _ => .error (), fun _ => .error ()⟩

/-- Identity from the spec scenario: email `a@x.com`. -/
def axUser : Identity := ⟨some "a@x.com"⟩

/-- The popup-blocked error. -/
def blockedErr : AuthErr := ⟨some "auth/popup-blocked"⟩

/-- Desktop environment for the AuthContext.tsx orchestrator in which the
popup attempt throws popup-blocked and every other awaited call succeeds. -/
def ctxDesktopBlockedEnv : CtxSignInEnv :=
  ⟨false, false, false, .ok (), .ok (), .error blockedErr⟩

/-- A 1001-entry analysis rate table whose every record has `timestamp 0`. -/
def bigTableAn : RateTable :=
  (List.range 1001).map (fun i => (Nat.repr i, ⟨1, 0⟩))

/-- A 1001-entry middleware rate table: key `a` saturated at count 100 inside
the current window, plus 1000 stale entries. -/
def bigTableMw : RateTable :=
  ("a", ⟨100, 0⟩) :: (List.range 1000).map (fun i => (Nat.repr i, ⟨1, -200000⟩))

/-- An auth error whose code is not in the recognised benign set. -/
def unknownErr : AuthErr := ⟨some "auth/internal-error"⟩

/-- Desktop environment for the part_005 orchestrator in which the popup
attempt throws popup-blocked and every other awaited call succeeds. -/
def p5DesktopBlockedEnv : P5SignInEnv :=
  ⟨false, false, .ok (), .ok (), .ok (), .error blockedErr, .ok ()⟩

/-- Desktop environment for the part_005 orchestrator in which the popup
attempt throws an unrecognised error. -/
def p5DesktopUnknownEnv : P5SignInEnv :=
  ⟨false, false, .ok (), .ok (), .ok (), .error unknownErr, .ok ()⟩

/-! Association-list lemmas. -/

theorem alistGet_alistSet_self {α : Type} (t : List (String × α)) (k : String)
    (v : α) : alistGet (alistSet t k v) k = some v := by
  induction t with
  | nil => simp [alistGet, alistSet]
  | cons hd rest ih =>
    by_cases h : hd.1 = k
    · simp [alistSet, alistGet, h]
    · simp [alistSet, alistGet, h, ih]

theorem alistGet_alistSet_ne {α : Type} (t : List (String × α))
    (k k' : String) (v : α) (h : k' ≠ k) :
    alistGet (alistSet t k v) k' = alistGet t k' := by
  induction t with
  | nil => simp [alistGet, alistSet, Ne.symm h]
  | cons hd rest ih =>
    obtain ⟨k1, v1⟩ := hd
    by_cases hk : k1 = k
    · subst hk
      simp [alistSet, alistGet, Ne.symm h]
    · simp [alistSet, alistGet, hk, ih]

theorem alistGet_alistRemove_self {α : Type} (t : List (String × α))
    (k : String) : alistGet (alistRemove t k) k = none := by
  induction t with
  | nil => simp [alistGet, alistRemove]
  | cons hd rest ih =>
    by_cases h : hd.1 = k
    · simp [alistRemove, h, ih]
    · simp [alistRemove, alistGet, h, ih]

theorem alistGet_alistRemove_ne {α : Type} (t : List (String × α))
    (k k' : String) (h : k' ≠ k) :
    alistGet (alistRemove t k) k' = alistGet t k' := by
  induction t with
  | nil => simp [alistRemove]
  | cons hd rest ih =>
    obtain ⟨k1, v1⟩ := hd
    by_cases hk : k1 = k
    · subst hk
      simp [alistRemove, alistGet, Ne.symm h, ih]
    · simp [alistRemove, alistGet, hk, ih]

theorem length_le_alistSet {α : Type} (t : List (String × α)) (k : String)
    (v : α) : t.length ≤ (alistSet t k v).length := by
  induction t with
  | nil => simp [alistSet]
  | cons hd rest ih =>
    by_cases h : hd.1 = k
    · simp [alistSet, h]
    · simpa [alistSet, h] using ih

theorem alistGet_filter {α : Type} (t : List (String × α))
    (p : String × α → Bool) (k : String) (v : α)
    (hget : alistGet t k = some v) (hp : p (k, v) = true) :
    alistGet (t.filter p) k = some v := by
  induction t with
  | nil => simp [alistGet] at hget
  | cons hd rest ih =>
    by_cases hk : hd.1 = k
    · have hv : hd.2 = v := by
        simpa [alistGet, hk] using hget
      have : hd = (k, v) := by
        cases hd
        simp_all
      subst this
      simp [List.filter, hp, alistGet]
    · have hget' : alistGet rest k = some v := by
        simpa [alistGet, hk] using hget
      by_cases hph : p hd = true
      · simp [List.filter, hph, alistGet, hk, ih hget']
      · simp [List.filter, hph, ih hget']

/-! Rate-limiter lemmas. -/

theorem alistGet_mwSweep (t : RateTable) (now : Int) (k : String)
    (v : RateRecord) (hget : alistGet t k = some v)
    (hfresh : ¬(v.timestamp < now - mwWindowMs)) :
    alistGet (mwSweep t now) k = some v := by
  unfold mwSweep
  by_cases h : 1000 < t.length
  · rw [if_pos h]
    exact alistGet_filter t _ k v hget (by simpa using hfresh)
  · rw [if_neg h]
    exact hget

theorem mem_mwSweep_fresh (t : RateTable) (now : Int) (hlen : 1000 < t.length)
    (e : String × RateRecord) (hmem : e ∈ mwSweep t now) :
    ¬(e.2.timestamp < now - mwWindowMs) := by
  unfold mwSweep at hmem
  rw [if_pos hlen] at hmem
  simpa using (List.mem_filter.mp hmem).2

/-- In-window saturation of the middleware limiter: starting from a
single-key table `{count c, windowStart t0}`, a sequence of requests whose
times all satisfy `t - t0 ≤ windowMs` increments the count once per request
and allows the k-th of them exactly when `c + k ≤ 100`. -/
theorem mwRun_inwindow (ip : String) (times : List Int) :
    ∀ (c : Nat) (t0 : Int), (∀ t ∈ times, t - t0 ≤ mwWindowMs) →
      mwRun ip times [(ip, ⟨c, t0⟩)] =
        ([(ip, ⟨c + times.length, t0⟩)],
         (List.range times.length).map
           (fun k => decide (c + k + 1 ≤ mwMaxRequests))) := by
  induction times with
  | nil => intro c t0 _; simp [mwRun]
  | cons now rest ih =>
    intro c t0 h
    have hhead : now - t0 ≤ mwWindowMs := h now (List.mem_cons_self _ _)
    have htail : ∀ t ∈ rest, t - t0 ≤ mwWindowMs :=
      fun t ht => h t (List.mem_cons_of_mem _ ht)
    have hstep : mwRateStep [(ip, ⟨c, t0⟩)] ip now =
        ([(ip, ⟨c + 1, t0⟩)], decide (c + 1 ≤ mwMaxRequests)) := by
      by_cases hc : mwMaxRequests < c + 1
      · simp [mwRateStep, alistGet, alistSet, mwSweep, not_lt.mpr hhead, hc,
          decide_eq_false (by omega : ¬ c + 1 ≤ mwMaxRequests)]
      · simp [mwRateStep, alistGet, alistSet, mwSweep, not_lt.mpr hhead, hc,
          decide_eq_true (by omega : c + 1 ≤ mwMaxRequests)]
    have hrec := ih (c + 1) t0 htail
    simp only [mwRun, hstep, hrec, Prod.mk.injEq, List.length_cons]
    refine ⟨by rw [show c + 1 + rest.length = c + (rest.length + 1) by omega],
      ?_⟩
    rw [List.range_succ_eq_map, List.map_cons, List.map_map]
    refine congrArg₂ List.cons (decide_eq_decide.mpr (by omega)) ?_
    refine List.map_congr_left (fun a _ => ?_)
    simp only [Function.comp_apply]
    exact decide_eq_decide.mpr (by omega)

/-- In-window saturation of the AI-analysis limiter: starting from a
single-key table `{count c, timestamp t0}` with `c ≤ 20`, a sequence of
requests whose times all satisfy `t - t0 < windowMs` allows the k-th of them
exactly when `c + k < 20`, incrementing the count only on allowed requests
(denials leave the table untouched). -/
theorem anRun_inwindow (ip : String) (times : List Int) :
    ∀ (c : Nat) (t0 : Int), c ≤ anMaxRequests →
      (∀ t ∈ times, t - t0 < anWindowMs) →
      anRun ip times [(ip, ⟨c, t0⟩)] =
        ([(ip, ⟨min (c + times.length) anMaxRequests, t0⟩)],
         (List.range times.length).map
           (fun k => decide (c + k < anMaxRequests))) := by
  induction times with
  | nil =>
    intro c t0 hc _
    simp [anRun, Nat.min_eq_left hc]
  | cons now rest ih =>
    intro c t0 hc h
    have hhead : now - t0 < anWindowMs := h now (List.mem_cons_self _ _)
    have htail : ∀ t ∈ rest, t - t0 < anWindowMs :=
      fun t ht => h t (List.mem_cons_of_mem _ ht)
    by_cases hlt : c < anMaxRequests
    · have hstep : anRateStep [(ip, ⟨c, t0⟩)] ip now =
          ([(ip, ⟨c + 1, t0⟩)], true) := by
        simp [anRateStep, alistGet, alistSet, hhead, Nat.not_le, hlt]
      have hrec := ih (c + 1) t0 (by omega) htail
      simp only [anRun, hstep, hrec, Prod.mk.injEq, List.length_cons]
      refine ⟨by rw [show c + 1 + rest.length = c + (rest.length + 1) by omega],
        ?_⟩
      rw [List.range_succ_eq_map, List.map_cons, List.map_map]
      refine congrArg₂ List.cons (by simp [hlt]) ?_
      refine List.map_congr_left (fun a _ => ?_)
      simp only [Function.comp_apply]
      exact decide_eq_decide.mpr (by omega)
    · have hceq : c = anMaxRequests := by omega
      have hstep : anRateStep [(ip, ⟨c, t0⟩)] ip now =
          ([(ip, ⟨c, t0⟩)], false) := by
        simp [anRateStep, alistGet, hhead, (by omega : anMaxRequests ≤ c)]
      have hrec := ih c t0 hc htail
      simp only [anRun, hstep, hrec, Prod.mk.injEq, List.length_cons]
      refine ⟨by rw [hceq]; simp [Nat.min_eq_right (by omega : anMaxRequests ≤ anMaxRequests + (rest.length + 1)), Nat.min_eq_right (by omega : anMaxRequests ≤ anMaxRequests + rest.length)], ?_⟩

      rw [List.range_succ_eq_map, List.map_cons, List.map_map]
      refine congrArg₂ List.cons (by simp [decide_eq_false (by omega : ¬ c + 0 < anMaxRequests), decide_eq_false (by omega : ¬ c < anMaxRequests)]) ?_
      refine List.map_congr_left (fun a _ => ?_)
      simp only [Function.comp_apply]
      exact decide_eq_decide.mpr (by omega)

/-- The AI-analysis limiter never removes or alters another key's record. -/
theorem anRateStep_other_key (t : RateTable) (ip k : String) (now : Int)
    (h : k ≠ ip) : alistGet (anRateStep t ip now).1 k = alistGet t k := by
  unfold anRateStep
  cases hg : alistGet t ip with
  | none => simpa using alistGet_alistSet_ne t ip k _ h
  | some cur =>
    by_cases hw : now - cur.timestamp < anWindowMs
    · by_cases hc : anMaxRequests ≤ cur.count
      · simp [hw, hc]
      · simpa [hw, hc] using alistGet_alistSet_ne t ip k _ h
    · simpa [hw] using alistGet_alistSet_ne t ip k _ h

/-! Claim theorems. -/

/-- C2: for every key, starting from an empty record, the middleware limiter
(`W` = 10 min, `N` = 100) allows the k-th request of a same-window sequence
exactly when `k ≤ 100` — so exactly 100 consecutive requests are allowed and
the 101st is denied — and the AI-analysis limiter (`W` = 1 h, `N` = 20)
allows the k-th exactly when `k ≤ 20`; in either limiter, once the window
has elapsed for a key's record, the next request resets the record to
`{count 1, windowStart now}` and is allowed. -/
theorem claim_C2_rate_limiter_window :
    (∀ (ip : String) (t0 : Int) (rest : List Int),
      (∀ t ∈ rest, t - t0 ≤ mwWindowMs) →
      (mwRun ip (t0 :: rest) []).2 =
        (List.range (rest.length + 1)).map
          (fun k => decide (k + 1 ≤ mwMaxRequests)))
    ∧ (∀ (t : RateTable) (ip : String) (now : Int) (c : Nat) (ts : Int),
      alistGet t ip = some ⟨c, ts⟩ → mwWindowMs < now - ts →
      (mwRateStep t ip now).2 = true ∧
      alistGet (mwRateStep t ip now).1 ip = some ⟨1, now⟩)
    ∧ (∀ (ip : String) (t0 : Int) (rest : List Int),
      (∀ t ∈ rest, t - t0 < anWindowMs) →
      (anRun ip (t0 :: rest) []).2 =
        (List.range (rest.length + 1)).map
          (fun k => decide (k + 1 ≤ anMaxRequests)))
    ∧ (∀ (t : RateTable) (ip : String) (now : Int) (c : Nat) (ts : Int),
      alistGet t ip = some ⟨c, ts⟩ → anWindowMs ≤ now - ts →
      (anRateStep t ip now).2 = true ∧
      alistGet (anRateStep t ip now).1 ip = some ⟨1, now⟩) := by
  refine ⟨?_, ?_, ?_, ?_⟩
  · intro ip t0 rest h
    have hfirst : mwRateStep [] ip t0 = ([(ip, ⟨1, t0⟩)], true) := by
      simp [mwRateStep, alistGet, alistSet, mwSweep]
    have hrec := mwRun_inwindow ip rest 1 t0 h
    simp only [mwRun, hfirst, hrec]
    rw [List.range_succ_eq_map, List.map_cons, List.map_map]
    refine congrArg₂ List.cons (by decide) ?_
    refine List.map_congr_left (fun a _ => ?_)
    simp only [Function.comp_apply]
    exact decide_eq_decide.mpr (by omega)
  · intro t ip now c ts hget hw
    have hstep : mwRateStep t ip now =
        (mwSweep (alistSet t ip ⟨1, now⟩) now, true) := by
      simp [mwRateStep, hget, hw]
    rw [hstep]
    refine ⟨rfl, ?_⟩
    refine alistGet_mwSweep _ now ip ⟨1, now⟩ (alistGet_alistSet_self t ip _) ?_
    simp only [mwWindowMs]
    omega
  · intro ip t0 rest h
    have hfirst : anRateStep [] ip t0 = ([(ip, ⟨1, t0⟩)], true) := by
      simp [anRateStep, alistGet, alistSet]
    have hrec := anRun_inwindow ip rest 1 t0 (by decide) h
    simp only [anRun, hfirst, hrec]
    rw [List.range_succ_eq_map, List.map_cons, List.map_map]
    refine congrArg₂ List.cons (by decide) ?_
    refine List.map_congr_left (fun a _ => ?_)
    simp only [Function.comp_apply]
    exact decide_eq_decide.mpr (by omega)
  · intro t ip now c ts hget hw
    have hstep : anRateStep t ip now = (alistSet t ip ⟨1, now⟩, true) := by
      simp [anRateStep, hget, not_lt.mpr hw]
    rw [hstep]
    exact ⟨rfl, alistGet_alistSet_self t ip _⟩

/-- C2 witness: key `1.2.3.4` sending 101 requests at time 0 sees 100 allows
then a deny in the middleware; 21 requests see 20 allows then a deny in the
AI-analysis action; and a saturated record is reset to count 1 and allowed
once the window has elapsed. -/
theorem claim_C2_rate_limiter_window_witness :
    (mwRun "1.2.3.4" (0 :: List.replicate 100 (0 : Int)) []).2 =
      List.replicate 100 true ++ [false] ∧
    (anRun "1.2.3.4" (0 :: List.replicate 20 (0 : Int)) []).2 =
      List.replicate 20 true ++ [false] ∧
    ((mwRateStep [("1.2.3.4", ⟨100, 0⟩)] "1.2.3.4" 600001).2 = true ∧
      alistGet (mwRateStep [("1.2.3.4", ⟨100, 0⟩)] "1.2.3.4" 600001).1
        "1.2.3.4" = some ⟨1, 600001⟩) ∧
    ((anRateStep [("5.6.7.8", ⟨20, 0⟩)] "5.6.7.8" 3600000).2 = true ∧
      alistGet (anRateStep [("5.6.7.8", ⟨20, 0⟩)] "5.6.7.8" 3600000).1
        "5.6.7.8" = some ⟨1, 3600000⟩) := by
  obtain ⟨h1, h2, h3, h4⟩ := claim_C2_rate_limiter_window
  refine ⟨?_, ?_, ?_, ?_⟩
  · rw [h1 "1.2.3.4" 0 (List.replicate 100 0)
      (by intro t ht; rw [List.eq_of_mem_replicate ht]; decide)]
    decide
  · rw [h3 "1.2.3.4" 0 (List.replicate 20 0)
      (by intro t ht; rw [List.eq_of_mem_replicate ht]; decide)]
    decide
  · exact h2 [("1.2.3.4", ⟨100, 0⟩)] "1.2.3.4" 600001 100 0
      (by simp [alistGet]) (by decide)
  · exact h4 [("5.6.7.8", ⟨20, 0⟩)] "5.6.7.8" 3600000 20 0
      (by simp [alistGet]) (by decide)

/-- The two cache keys for one email are always distinct strings. -/
theorem accessKey_ne_tsKey (email : String) :
    ("access_" ++ email) ≠ ("access_ts_" ++ email) := by
  intro h
  have hlen := congrArg String.length h
  have h7 : ("access_" : String).length = 7 := by decide
  have h10 : ("access_ts_" : String).length = 10 := by decide
  simp only [String.length_append, h7, h10] at hlen
  omega

/-- C1: for every identity whose email is absent (`null`) or empty, both
`checkAccess` variants deny: the user is never set, no remote whitelist call
is made and the local store is untouched (so the outcome is independent of
any cache entry, hardcoded-list content or whitelist state), and the
identity-provider session is signed out. -/
theorem claim_C1_no_email_always_denies (u : Identity)
    (allowList : List String) (store : LocalStorage) (now : Int) (db : Db)
    (h : u.email = none ∨ u.email = some "") :
    ((checkAccessP4 u allowList store now db).user = none ∧
      (checkAccessP4 u allowList store now db).signedOut = true ∧
      (checkAccessP4 u allowList store now db).remoteCalls = [] ∧
      (checkAccessP4 u allowList store now db).store = store) ∧
    ((checkAccessCtx u allowList store db).user = none ∧
      (checkAccessCtx u allowList store db).signedOut = true ∧
      (checkAccessCtx u allowList store db).remoteCalls = [] ∧
      (checkAccessCtx u allowList store db).store = store) := by
  obtain ⟨e⟩ := u
  simp only [Identity.mk.injEq] at h
  rcases h with h | h <;> subst h <;> simp [checkAccessP4, checkAccessCtx]

/-- C1 witness: the no-email identity is denied and signed out by both
variants even with a granting cache entry, a nonempty hardcoded list and a
whitelist that contains every email. -/
theorem claim_C1_no_email_always_denies_witness :
    ((checkAccessP4 ⟨none⟩ ["b@x.com"]
        [("access_a@x.com", "true"), ("access_ts_a@x.com", "0")] 0
        dbKeyOnly).user = none ∧
      (checkAccessP4 ⟨none⟩ ["b@x.com"]
        [("access_a@x.com", "true"), ("access_ts_a@x.com", "0")] 0
        dbKeyOnly).signedOut = true ∧
      (checkAccessP4 ⟨none⟩ ["b@x.com"]
        [("access_a@x.com", "true"), ("access_ts_a@x.com", "0")] 0
        dbKeyOnly).remoteCalls = [] ∧
      (checkAccessP4 ⟨none⟩ ["b@x.com"]
        [("access_a@x.com", "true"), ("access_ts_a@x.com", "0")] 0
        dbKeyOnly).store =
        [("access_a@x.com", "true"), ("access_ts_a@x.com", "0")]) ∧
    ((checkAccessCtx ⟨none⟩ ["b@x.com"]
        [("access_a@x.com", "true"), ("access_ts_a@x.com", "0")]
        dbKeyOnly).user = none ∧
      (checkAccessCtx ⟨none⟩ ["b@x.com"]
        [("access_a@x.com", "true"), ("access_ts_a@x.com", "0")]
        dbKeyOnly).signedOut = true ∧
      (checkAccessCtx ⟨none⟩ ["b@x.com"]
        [("access_a@x.com", "true"), ("access_ts_a@x.com", "0")]
        dbKeyOnly).remoteCalls = [] ∧
      (checkAccessCtx ⟨none⟩ ["b@x.com"]
        [("access_a@x.com", "true"), ("access_ts_a@x.com", "0")]
        dbKeyOnly).store =
        [("access_a@x.com", "true"), ("access_ts_a@x.com", "0")]) :=
  claim_C1_no_email_always_denies ⟨none⟩ ["b@x.com"]
    [("access_a@x.com", "true"), ("access_ts_a@x.com", "0")] 0 dbKeyOnly
    (Or.inl rfl)

/-- C3: in both `checkAccess` variants, whenever the remote whitelist lookup
that actually runs throws, the check fails closed: the identity-provider
session is signed out and the user is set to null — never a grant on a
failed remote lookup. -/
theorem claim_C3_remote_failure_fails_closed (u : Identity)
    (allowList : List String) (store : LocalStorage) (now : Int) (db : Db)
    (email : String) (hem : u.email = some email) (hne : email ≠ "") :
    (¬(alistGet store ("access_" ++ email) = some "true" ∧
        tsValid (alistGet store ("access_ts_" ++ email)) now = true) →
      allowList.contains email = false →
      (db.docExists email = .error () ∨
        (db.docExists email = .ok false ∧
          db.queryNonempty email = .error ())) →
      (checkAccessP4 u allowList store now db).user = none ∧
      (checkAccessP4 u allowList store now db).signedOut = true) ∧
    (allowList.contains email = false →
      (db.queryNonempty email = .error () ∨
        (db.queryNonempty email = .ok false ∧
          db.docExists email = .error ())) →
      (checkAccessCtx u allowList store db).user = none ∧
      (checkAccessCtx u allowList store db).signedOut = true) := by
  obtain ⟨e⟩ := u
  simp only [Identity.mk.injEq] at hem
  subst hem
  constructor
  · intro hch hlist hdb
    have hcond : (decide (alistGet store ("access_" ++ email) = some "true")
        && tsValid (alistGet store ("access_ts_" ++ email)) now) = false := by
      cases hA : decide (alistGet store ("access_" ++ email) = some "true") with
      | false => simp [hA]
      | true =>
        cases hB : tsValid (alistGet store ("access_ts_" ++ email)) now with
        | false => simp [hA, hB]
        | true => exact absurd ⟨of_decide_eq_true hA, hB⟩ hch
    have hmem : email ∉ allowList := by simpa using hlist
    rcases hdb with herr | ⟨hok, herr⟩
    · simp [checkAccessP4, hne, hcond, hmem, herr]
    · simp [checkAccessP4, hne, hcond, hmem, hok, herr]
  · intro hlist hdb
    have hmem : email ∉ allowList := by simpa using hlist
    rcases hdb with herr | ⟨hok, herr⟩
    · simp [checkAccessCtx, hne, hmem, herr]
    · simp [checkAccessCtx, hne, hmem, hok, herr]

/-- C3 witness: with an empty cache and allow-list and a store whose every
lookup throws, both variants sign out and leave the user null. -/
theorem claim_C3_remote_failure_fails_closed_witness :
    ((checkAccessP4 axUser [] [] 0 dbThrows).user = none ∧
      (checkAccessP4 axUser [] [] 0 dbThrows).signedOut = true) ∧
    ((checkAccessCtx axUser [] [] dbThrows).user = none ∧
      (checkAccessCtx axUser [] [] dbThrows).signedOut = true) := by
  have h := claim_C3_remote_failure_fails_closed axUser [] [] 0 dbThrows
    "a@x.com" rfl (by decide)
  exact ⟨h.1 (by simp [alistGet]) (by decide) (Or.inl rfl),
    h.2 (by decide) (Or.inl rfl)⟩

/-- C4: in the part_004 variant, an email with no valid cache entry, absent
from the hardcoded list and found by neither the direct key lookup nor the
equality-filter query, is denied: the user is set to null, the session is
signed out, and both cache keys (`access_<email>` and `access_ts_<email>`)
are removed from localStorage. -/
theorem claim_C4_double_miss_clears_cache (u : Identity)
    (allowList : List String) (store : LocalStorage) (now : Int) (db : Db)
    (email : String) (hem : u.email = some email) (hne : email ≠ "")
    (hch : ¬(alistGet store ("access_" ++ email) = some "true" ∧
      tsValid (alistGet store ("access_ts_" ++ email)) now = true))
    (hlist : allowList.contains email = false)
    (hdoc : db.docExists email = .ok false)
    (hq : db.queryNonempty email = .ok false) :
    (checkAccessP4 u allowList store now db).user = none ∧
    (checkAccessP4 u allowList store now db).signedOut = true ∧
    alistGet (checkAccessP4 u allowList store now db).store
      ("access_" ++ email) = none ∧
    alistGet (checkAccessP4 u allowList store now db).store
      ("access_ts_" ++ email) = none := by
  obtain ⟨e⟩ := u
  simp only [Identity.mk.injEq] at hem
  subst hem
  have hcond : (decide (alistGet store ("access_" ++ email) = some "true")
      && tsValid (alistGet store ("access_ts_" ++ email)) now) = false := by
    cases hA : decide (alistGet store ("access_" ++ email) = some "true") with
    | false => simp [hA]
    | true =>
      cases hB : tsValid (alistGet store ("access_ts_" ++ email)) now with
      | false => simp [hA, hB]
      | true => exact absurd ⟨of_decide_eq_true hA, hB⟩ hch
  have hmem : email ∉ allowList := by simpa using hlist
  have hres : checkAccessP4 ⟨some email⟩ allowList store now db =
      ⟨none, cacheClear store email, true,
        [.docGet email, .queryEmail email]⟩ := by
    simp [checkAccessP4, hne, hcond, hmem, hdoc, hq]
  rw [hres]
  refine ⟨rfl, rfl, ?_, ?_⟩
  · show alistGet (alistRemove (alistRemove store ("access_" ++ email))
      ("access_ts_" ++ email)) ("access_" ++ email) = none
    rw [alistGet_alistRemove_ne _ _ _ (accessKey_ne_tsKey email)]
    exact alistGet_alistRemove_self store ("access_" ++ email)
  · exact alistGet_alistRemove_self _ ("access_ts_" ++ email)

/-- C4 witness: `a@x.com` with a stale cache entry, an empty allow-list and a
missing whitelist record is denied, signed out, and both its cache keys are
gone afterwards. -/
theorem claim_C4_double_miss_clears_cache_witness :
    (checkAccessP4 axUser []
      [("access_a@x.com", "true"), ("access_ts_a@x.com", "x")] 0
      dbMissAll).user = none ∧
    (checkAccessP4 axUser []
      [("access_a@x.com", "true"), ("access_ts_a@x.com", "x")] 0
      dbMissAll).signedOut = true ∧
    alistGet (checkAccessP4 axUser []
      [("access_a@x.com", "true"), ("access_ts_a@x.com", "x")] 0
      dbMissAll).store ("access_" ++ "a@x.com") = none ∧
    alistGet (checkAccessP4 axUser []
      [("access_a@x.com", "true"), ("access_ts_a@x.com", "x")] 0
      dbMissAll).store ("access_ts_" ++ "a@x.com") = none :=
  claim_C4_double_miss_clears_cache axUser []
    [("access_a@x.com", "true"), ("access_ts_a@x.com", "x")] 0 dbMissAll
    "a@x.com" rfl (by decide) (by decide) (by decide) rfl rfl

/-- C5: in the part_004 variant, an email whose cache entry is `"true"` with
a timestamp younger than 30 days is granted with no remote call and no state
change, so an immediately repeated check returns the identical result with
no additional remote calls. -/
theorem claim_C5_cache_hit_idempotent (u : Identity)
    (allowList : List String) (store : LocalStorage) (now : Int) (db : Db)
    (email : String) (hem : u.email = some email) (hne : email ≠ "")
    (hc : alistGet store ("access_" ++ email) = some "true")
    (hv : tsValid (alistGet store ("access_ts_" ++ email)) now = true) :
    checkAccessP4 u allowList store now db = ⟨some u, store, false, []⟩ ∧
    checkAccessP4 u allowList
        (checkAccessP4 u allowList store now db).store now db =
      checkAccessP4 u allowList store now db := by
  have hres : checkAccessP4 u allowList store now db =
      ⟨some u, store, false, []⟩ := by
    obtain ⟨e⟩ := u
    simp only [Identity.mk.injEq] at hem
    subst hem
    simp [checkAccessP4, hne, hc, hv]
  refine ⟨hres, ?_⟩
  rw [hres]
  exact hres

/-- C5 witness: a fresh granting cache entry for `a@x.com` yields a grant
with no remote calls even against a whitelist whose every lookup throws, and
the repeated check returns the identical result. -/
theorem claim_C5_cache_hit_idempotent_witness :
    checkAccessP4 axUser []
        [("access_a@x.com", "true"), ("access_ts_a@x.com", "0")] 5 dbThrows =
      ⟨some axUser,
        [("access_a@x.com", "true"), ("access_ts_a@x.com", "0")], false,
        []⟩ ∧
    checkAccessP4 axUser []
        (checkAccessP4 axUser []
          [("access_a@x.com", "true"), ("access_ts_a@x.com", "0")] 5
          dbThrows).store 5 dbThrows =
      checkAccessP4 axUser []
        [("access_a@x.com", "true"), ("access_ts_a@x.com", "0")] 5 dbThrows :=
  claim_C5_cache_hit_idempotent axUser []
    [("access_a@x.com", "true"), ("access_ts_a@x.com", "0")] 5 dbThrows
    "a@x.com" rfl (by decide) (by decide) (by decide)

/-- A cache miss makes the guard of the cached-grant branch false. -/
theorem cacheMissCond (store : LocalStorage) (email : String) (now : Int)
    (hch : ¬(alistGet store ("access_" ++ email) = some "true" ∧
      tsValid (alistGet store ("access_ts_" ++ email)) now = true)) :
    (decide (alistGet store ("access_" ++ email) = some "true")
      && tsValid (alistGet store ("access_ts_" ++ email)) now) = false := by
  cases hA : decide (alistGet store ("access_" ++ email) = some "true") with
  | false => simp [hA]
  | true =>
    cases hB : tsValid (alistGet store ("access_ts_" ++ email)) now with
    | false => simp [hA, hB]
    | true => exact absurd ⟨of_decide_eq_true hA, hB⟩ hch

/-- Both cache keys are readable after `cacheWrite`. -/
theorem cacheWrite_get (store : LocalStorage) (email : String) (now : Int) :
    alistGet (cacheWrite store email now) ("access_" ++ email) =
      some "true" ∧
    alistGet (cacheWrite store email now) ("access_ts_" ++ email) =
      some (toString now) := by
  constructor
  · unfold cacheWrite
    rw [alistGet_alistSet_ne _ _ _ _ (accessKey_ne_tsKey email)]
    exact alistGet_alistSet_self _ _ _
  · exact alistGet_alistSet_self _ _ _

/-- C6 counterexample: in the part_004 variant, for `a@x.com` present only
as a record id (the spec scenario), the run's sole remote call is the direct
`getDoc` — no equality-filter query ever ran, so the direct key lookup is
not a fallback taken after an empty query; and in the AuthContext.tsx
variant a grant found by the query writes no cache entry. -/
theorem claim_C6_lookup_order_counterexample :
    (checkAccessP4 axUser [] [] 0 dbKeyOnly).remoteCalls =
      [RemoteCall.docGet "a@x.com"] ∧
    ((checkAccessP4 axUser [] [] 0 dbKeyOnly).remoteCalls.map
      RemoteCall.isQueryCall) = [false] ∧
    (checkAccessP4 axUser [] [] 0 dbKeyOnly).user = some axUser ∧
    (checkAccessCtx axUser [] [] dbQueryOnly).user = some axUser ∧
    alistGet (checkAccessCtx axUser [] [] dbQueryOnly).store
      ("access_" ++ "a@x.com") = none ∧
    alistGet (checkAccessCtx axUser [] [] dbQueryOnly).store
      ("access_ts_" ++ "a@x.com") = none := by
  decide

/-- C6 amended: the two variants disagree on lookup order.  In the
AuthContext.tsx variant the equality-filter query runs first and the direct
key lookup only when the query is empty, an email found by either method is
granted, but no cache entry is written (localStorage passes through
untouched).  In the part_004 variant the direct key lookup runs first and
the equality-filter query only when the key lookup misses; an email found by
either method is granted and both cache entries are written. -/
theorem claim_C6_lookup_order_amended :
    (∀ (u : Identity) (allowList : List String) (store : LocalStorage)
      (now : Int) (db : Db) (email : String),
      u.email = some email → email ≠ "" →
      ¬(alistGet store ("access_" ++ email) = some "true" ∧
        tsValid (alistGet store ("access_ts_" ++ email)) now = true) →
      allowList.contains email = false →
      ((checkAccessP4 u allowList store now db).remoteCalls.head? =
        some (.docGet email)) ∧
      (db.docExists email = .ok true →
        (checkAccessP4 u allowList store now db).remoteCalls =
          [.docGet email] ∧
        (checkAccessP4 u allowList store now db).user = some u ∧
        alistGet (checkAccessP4 u allowList store now db).store
          ("access_" ++ email) = some "true" ∧
        alistGet (checkAccessP4 u allowList store now db).store
          ("access_ts_" ++ email) = some (toString now)) ∧
      (db.docExists email = .ok false → db.queryNonempty email = .ok true →
        (checkAccessP4 u allowList store now db).remoteCalls =
          [.docGet email, .queryEmail email] ∧
        (checkAccessP4 u allowList store now db).user = some u ∧
        alistGet (checkAccessP4 u allowList store now db).store
          ("access_" ++ email) = some "true" ∧
        alistGet (checkAccessP4 u allowList store now db).store
          ("access_ts_" ++ email) = some (toString now))) ∧
    (∀ (u : Identity) (allowList : List String) (store : LocalStorage)
      (db : Db) (email : String),
      u.email = some email → email ≠ "" →
      allowList.contains email = false →
      ((checkAccessCtx u allowList store db).remoteCalls.head? =
        some (.queryEmail email)) ∧
      (db.queryNonempty email = .ok true →
        (checkAccessCtx u allowList store db).remoteCalls =
          [.queryEmail email] ∧
        (checkAccessCtx u allowList store db).user = some u ∧
        (checkAccessCtx u allowList store db).store = store) ∧
      (db.queryNonempty email = .ok false → db.docExists email = .ok true →
        (checkAccessCtx u allowList store db).remoteCalls =
          [.queryEmail email, .docGet email] ∧
        (checkAccessCtx u allowList store db).user = some u ∧
        (checkAccessCtx u allowList store db).store = store)) := by
  constructor
  · intro u allowList store now db email hem hne hch hlist
    obtain ⟨e⟩ := u
    simp only [Identity.mk.injEq] at hem
    subst hem
    have hcond := cacheMissCond store email now hch
    have hmem : email ∉ allowList := by simpa using hlist
    refine ⟨?_, ?_, ?_⟩
    · cases hdoc : db.docExists email with
      | error e2 => simp [checkAccessP4, hne, hcond, hmem, hdoc]
      | ok b =>
        cases b with
        | false =>
          cases hq : db.queryNonempty email with
          | error e3 => simp [checkAccessP4, hne, hcond, hmem, hdoc, hq]
          | ok b2 =>
            cases b2 <;> simp [checkAccessP4, hne, hcond, hmem, hdoc, hq]
        | true => simp [checkAccessP4, hne, hcond, hmem, hdoc]
    · intro hdoc
      have hres : checkAccessP4 ⟨some email⟩ allowList store now db =
          ⟨some ⟨some email⟩, cacheWrite store email now, false,
            [.docGet email]⟩ := by
        simp [checkAccessP4, hne, hcond, hmem, hdoc]
      rw [hres]
      exact ⟨rfl, rfl, (cacheWrite_get store email now).1,
        (cacheWrite_get store email now).2⟩
    · intro hdoc hq
      have hres : checkAccessP4 ⟨some email⟩ allowList store now db =
          ⟨some ⟨some email⟩, cacheWrite store email now, false,
            [.docGet email, .queryEmail email]⟩ := by
        simp [checkAccessP4, hne, hcond, hmem, hdoc, hq]
      rw [hres]
      exact ⟨rfl, rfl, (cacheWrite_get store email now).1,
        (cacheWrite_get store email now).2⟩
  · intro u allowList store db email hem hne hlist
    obtain ⟨e⟩ := u
    simp only [Identity.mk.injEq] at hem
    subst hem
    have hmem : email ∉ allowList := by simpa using hlist
    refine ⟨?_, ?_, ?_⟩
    · cases hq : db.queryNonempty email with
      | error e2 => simp [checkAccessCtx, hne, hmem, hq]
      | ok b =>
        cases b with
        | false =>
          cases hdoc : db.docExists email with
          | error e3 => simp [checkAccessCtx, hne, hmem, hq, hdoc]
          | ok b2 =>
            cases b2 <;> simp [checkAccessCtx, hne, hmem, hq, hdoc]
        | true => simp [checkAccessCtx, hne, hmem, hq]
    · intro hq
      simp [checkAccessCtx, hne, hmem, hq]
    · intro hq hdoc
      simp [checkAccessCtx, hne, hmem, hq, hdoc]

/-- C6 amended witness: `a@x.com` found only by record id in part_004 grants
via the key lookup alone and writes the cache; found only by the query in
AuthContext.tsx it grants with the query as the first call. -/
theorem claim_C6_lookup_order_amended_witness :
    (checkAccessP4 axUser [] [] 0 dbKeyOnly).remoteCalls.head? =
      some (RemoteCall.docGet "a@x.com") ∧
    (checkAccessP4 axUser [] [] 0 dbKeyOnly).user = some axUser ∧
    alistGet (checkAccessP4 axUser [] [] 0 dbKeyOnly).store
      ("access_" ++ "a@x.com") = some "true" ∧
    (checkAccessCtx axUser [] [] dbQueryOnly).remoteCalls.head? =
      some (RemoteCall.queryEmail "a@x.com") ∧
    (checkAccessCtx axUser [] [] dbQueryOnly).user = some axUser := by
  obtain ⟨h1, h2⟩ := claim_C6_lookup_order_amended
  have hp := h1 axUser [] [] 0 dbKeyOnly "a@x.com" rfl (by decide)
    (by decide) rfl
  have hq := h2 axUser [] [] dbQueryOnly "a@x.com" rfl (by decide) rfl
  exact ⟨hp.1, (hp.2.1 rfl).2.1, (hp.2.1 rfl).2.2.1, hq.1, (hq.2.1 rfl).2.1⟩

/-- C7 counterexample: in the AuthContext.tsx `signInWithGoogle`, a desktop
popup attempt that throws popup-blocked does NOT retry via redirect; the
error reaches the catch and surfaces a toast. -/
theorem claim_C7_popup_fallback_counterexample :
    (signInWithGoogleCtx ctxDesktopBlockedEnv).usedRedirect = false ∧
    (signInWithGoogleCtx ctxDesktopBlockedEnv).usedPopup = true ∧
    (signInWithGoogleCtx ctxDesktopBlockedEnv).toast = some blockedErr := by
  decide

/-- C7 amended: only the part_005 orchestrator has the claimed behaviour — a
desktop popup failure with code `auth/popup-blocked` falls back to redirect
(writing the pending marker) without a toast, and the toast is reached on
desktop only for errors outside the recognised benign set; the
AuthContext.tsx variant has no popup fallback and surfaces a toast for every
popup error, popup-blocked included. -/
theorem claim_C7_popup_fallback_amended :
    (∀ (env : P5SignInEnv) (e : AuthErr),
      env.isMobileSafari = false → env.isAndroid = false →
      p5Persist env = .ok () → env.popupOutcome = .error e →
      e.code = some "auth/popup-blocked" → env.redirectOutcome = .ok () →
      signInWithGoogleP5 env = ⟨true, true, true, none⟩) ∧
    (∀ (env : P5SignInEnv) (e : AuthErr),
      env.isMobileSafari = false → env.isAndroid = false →
      p5Persist env = .ok () → env.popupOutcome = .error e →
      (match e.code with
        | some c => recognizedPopupCodes.contains c
        | none => false) = false →
      signInWithGoogleP5 env = ⟨true, false, false, some e⟩) ∧
    (∀ (env : CtxSignInEnv) (e : AuthErr),
      env.isStandalone = false → env.isIOS = false → env.isMobile = false →
      env.persistOutcome = .ok () → env.popupOutcome = .error e →
      signInWithGoogleCtx env = ⟨true, false, false, some e⟩) := by
  refine ⟨?_, ?_, ?_⟩
  · intro env e hms ha hp hpo hcode hr
    simp [signInWithGoogleP5, hms, ha, hp, hpo, hcode, hr,
      recognizedPopupCodes]
  · intro env e hms ha hp hpo hcode
    cases hc : e.code with
    | none => simp [signInWithGoogleP5, hms, ha, hp, hpo, hc]
    | some c =>
      rw [hc] at hcode
      have hnm : c ∉ recognizedPopupCodes := by
        intro hmem
        have := List.elem_eq_true_of_mem hmem
        simp only [List.contains] at hcode
        rw [this] at hcode
        cases hcode
      simp [signInWithGoogleP5, hms, ha, hp, hpo, hc, hnm]
  · intro env e hsa hios hm hp hpo
    simp [signInWithGoogleCtx, hsa, hios, hm, hp, hpo]

/-- C7 amended witness: the concrete desktop environments — popup-blocked
retried via redirect with no toast in part_005, an unrecognised error
surfacing a toast with no retry, and the AuthContext.tsx variant toasting on
popup-blocked. -/
theorem claim_C7_popup_fallback_amended_witness :
    signInWithGoogleP5 p5DesktopBlockedEnv = ⟨true, true, true, none⟩ ∧
    signInWithGoogleP5 p5DesktopUnknownEnv =
      ⟨true, false, false, some unknownErr⟩ ∧
    signInWithGoogleCtx ctxDesktopBlockedEnv =
      ⟨true, false, false, some blockedErr⟩ := by
  obtain ⟨h1, h2, h3⟩ := claim_C7_popup_fallback_amended
  exact ⟨h1 p5DesktopBlockedEnv blockedErr rfl rfl rfl rfl rfl rfl,
    h2 p5DesktopUnknownEnv unknownErr rfl rfl rfl rfl (by decide),
    h3 ctxDesktopBlockedEnv blockedErr rfl rfl rfl rfl rfl⟩

/-- C8: the monthly-upload-limit gate fails open — a throwing month-count
query lets the submission proceed (on to the title validation), only a
successfully retrieved count of 100 or more blocks, a count below 100 never
blocks — asymmetric with the access check, which fails closed (a throwing
whitelist lookup denies and signs out). -/
theorem claim_C8_upload_limit_fail_open :
    (∀ title : String,
      handleSubmitGate true true (.error ()) title =
        (if cleanTitle title = "" then SubmitOutcome.noTitle
          else SubmitOutcome.proceed)) ∧
    (∀ (n : Nat) (title : String), 100 ≤ n →
      handleSubmitGate true true (.ok n) title = .limitReached) ∧
    (∀ (n : Nat) (title : String), n < 100 →
      handleSubmitGate true true (.ok n) title ≠ .limitReached) ∧
    (∀ (u : Identity) (allowList : List String) (store : LocalStorage)
      (now : Int) (db : Db) (email : String),
      u.email = some email → email ≠ "" →
      ¬(alistGet store ("access_" ++ email) = some "true" ∧
        tsValid (alistGet store ("access_ts_" ++ email)) now = true) →
      allowList.contains email = false →
      db.docExists email = .error () →
      (checkAccessP4 u allowList store now db).user = none ∧
      (checkAccessP4 u allowList store now db).signedOut = true) := by
  refine ⟨?_, ?_, ?_, ?_⟩
  · intro title
    simp [handleSubmitGate]
  · intro n title h
    simp [handleSubmitGate, h]
  · intro n title h
    simp only [handleSubmitGate]
    simp [Nat.not_le.mpr h]
    split <;> simp
  · intro u allowList store now db email hem hne hch hlist hdoc
    obtain ⟨e⟩ := u
    simp only [Identity.mk.injEq] at hem
    subst hem
    have hcond := cacheMissCond store email now hch
    have hmem : email ∉ allowList := by simpa using hlist
    simp [checkAccessP4, hne, hcond, hmem, hdoc]

/-- C8 witness: a throwing count query proceeds for a nonempty title, a
count of 100 blocks, a count of 99 does not, and the access check at the
same moment denies and signs out when its whitelist lookup throws. -/
theorem claim_C8_upload_limit_fail_open_witness :
    handleSubmitGate true true (.error ()) "Pasta" = SubmitOutcome.proceed ∧
    handleSubmitGate true true (.ok 100) "Pasta" =
      SubmitOutcome.limitReached ∧
    handleSubmitGate true true (.ok 99) "Pasta" ≠
      SubmitOutcome.limitReached ∧
    ((checkAccessP4 axUser [] [] 7 dbThrows).user = none ∧
      (checkAccessP4 axUser [] [] 7 dbThrows).signedOut = true) := by
  obtain ⟨h1, h2, h3, h4⟩ := claim_C8_upload_limit_fail_open
  refine ⟨?_, h2 100 "Pasta" (by decide), h3 99 "Pasta" (by decide),
    h4 axUser [] [] 7 dbThrows "a@x.com" rfl (by decide) (by decide) rfl rfl⟩
  rw [h1 "Pasta"]
  decide

set_option maxRecDepth 100000 in
/-- C9 counterexample: with the table over 1000 entries, a run of the
AI-analysis check leaves a stale record (timestamp 0, predating now − W)
in the table — that limiter has no sweep at all — and a denied (429) run of
the middleware check also leaves a stale record, because the 429 return
happens before the cleanup block. -/
theorem claim_C9_sweep_counterexample :
    (1000 < bigTableAn.length ∧
      (anRateStep bigTableAn "x" 3600001).2 = true ∧
      alistGet (anRateStep bigTableAn "x" 3600001).1 "0" = some ⟨1, 0⟩ ∧
      (0 : Int) < 3600001 - anWindowMs) ∧
    (1000 < bigTableMw.length ∧
      (mwRateStep bigTableMw "a" 500000).2 = false ∧
      alistGet (mwRateStep bigTableMw "a" 500000).1 "0" =
        some ⟨1, -200000⟩ ∧
      (-200000 : Int) < 500000 - mwWindowMs) := by
  decide

/-- C9 amended: only the middleware sweeps, and only on allowed requests —
when the table holds more than 1000 entries and the middleware check allows,
no record whose timestamp predates now − W survives; on a denied (429)
middleware request the table keeps every other entry (only the caller's
count is bumped); and the AI-analysis check never removes another key's
record, whatever the table size. -/
theorem claim_C9_sweep_amended :
    (∀ (t : RateTable) (ip : String) (now : Int),
      1000 < t.length → (mwRateStep t ip now).2 = true →
      ∀ e ∈ (mwRateStep t ip now).1,
        ¬(e.2.timestamp < now - mwWindowMs)) ∧
    (∀ (t : RateTable) (ip : String) (now : Int) (c : Nat) (ts : Int),
      alistGet t ip = some ⟨c, ts⟩ → ¬(mwWindowMs < now - ts) →
      mwMaxRequests < c + 1 →
      (mwRateStep t ip now).2 = false ∧
      (mwRateStep t ip now).1 = alistSet t ip ⟨c + 1, ts⟩) ∧
    (∀ (t : RateTable) (ip k : String) (now : Int), k ≠ ip →
      alistGet (anRateStep t ip now).1 k = alistGet t k) := by
  refine ⟨?_, ?_, ?_⟩
  · intro t ip now hlen hallow e hmem
    cases hg : alistGet t ip with
    | none =>
      have hr : (mwRateStep t ip now).1 =
          mwSweep (alistSet t ip ⟨1, now⟩) now := by
        simp [mwRateStep, hg]
      rw [hr] at hmem
      exact mem_mwSweep_fresh _ now
        (lt_of_lt_of_le hlen (length_le_alistSet t ip _)) e hmem
    | some cur =>
      by_cases hw : mwWindowMs < now - cur.timestamp
      · have hr : (mwRateStep t ip now).1 =
            mwSweep (alistSet t ip ⟨1, now⟩) now := by
          simp [mwRateStep, hg, hw]
        rw [hr] at hmem
        exact mem_mwSweep_fresh _ now
          (lt_of_lt_of_le hlen (length_le_alistSet t ip _)) e hmem
      · by_cases hc : mwMaxRequests < cur.count + 1
        · have hfalse : (mwRateStep t ip now).2 = false := by
            simp [mwRateStep, hg, hw, hc]
          rw [hallow] at hfalse
          cases hfalse
        · have hr : (mwRateStep t ip now).1 =
              mwSweep (alistSet t ip ⟨cur.count + 1, cur.timestamp⟩) now := by
            simp [mwRateStep, hg, hw, hc]
          rw [hr] at hmem
          exact mem_mwSweep_fresh _ now
            (lt_of_lt_of_le hlen (length_le_alistSet t ip _)) e hmem
  · intro t ip now c ts hg hw hc
    constructor <;> simp [mwRateStep, hg, hw, hc]
  · intro t ip k now h
    exact anRateStep_other_key t ip k now h

set_option maxRecDepth 100000 in
/-- C9 amended witness: an allowed middleware request on the 1001-entry
table leaves no stale entry; the denied request on the same table keeps
every record and only bumps the caller's count; the AI-analysis check on its
1001-entry table leaves the stale head entry in place. -/
theorem claim_C9_sweep_amended_witness :
    (∀ e ∈ (mwRateStep bigTableMw "b" 500000).1,
      ¬(e.2.timestamp < 500000 - mwWindowMs)) ∧
    ((mwRateStep bigTableMw "a" 500000).2 = false ∧
      (mwRateStep bigTableMw "a" 500000).1 =
        alistSet bigTableMw "a" ⟨101, 0⟩) ∧
    alistGet (anRateStep bigTableAn "x" 3600001).1 "0" = some ⟨1, 0⟩ := by
  obtain ⟨h1, h2, h3⟩ := claim_C9_sweep_amended
  refine ⟨h1 bigTableMw "b" 500000 (by decide) (by decide),
    h2 bigTableMw "a" 500000 100 0 (by decide) (by decide) (by decide), ?_⟩
  rw [h3 bigTableAn "x" "0" 3600001 (by decide)]
  decide

/-- C10: in `analyzeMeal` the rate-limit table update is decided entirely by
the rate-limit step, before the API-key/input/size validations — the
returned table always equals the rate-step's table, so a call rejected for
invalid input has still consumed one unit of quota (count incremented on an
existing in-window record, a fresh count-1 record created otherwise), and no
rollback happens when the call throws. -/
theorem claim_C10_quota_consumed_before_validation :
    (∀ (t : RateTable) (ip : String) (now : Int) (apiKeySet : Bool)
      (img mime : String) (ai : Except Unit String),
      (analyzeMeal t ip now apiKeySet img mime ai).1 =
        (anRateStep t ip now).1) ∧
    (∀ (t : RateTable) (ip : String) (now : Int) (mime : String)
      (ai : Except Unit String) (c : Nat) (ts : Int),
      alistGet t ip = some ⟨c, ts⟩ → now - ts < anWindowMs →
      c < anMaxRequests →
      (analyzeMeal t ip now true "" mime ai).2 =
        .error .invalidInput ∧
      alistGet (analyzeMeal t ip now true "" mime ai).1 ip =
        some ⟨c + 1, ts⟩) ∧
    (∀ (ip : String) (now : Int) (mime : String) (ai : Except Unit String),
      (analyzeMeal [] ip now true "" mime ai).2 = .error .invalidInput ∧
      alistGet (analyzeMeal [] ip now true "" mime ai).1 ip =
        some ⟨1, now⟩) := by
  refine ⟨?_, ?_, ?_⟩
  · intro t ip now k img mime ai
    simp only [analyzeMeal]
    split
    · rfl
    · split
      · rfl
      · split
        · rfl
        · split
          · rfl
          · split <;> rfl
  · intro t ip now mime ai c ts hg hw hc
    have hstep : anRateStep t ip now = (alistSet t ip ⟨c + 1, ts⟩, true) := by
      simp [anRateStep, hg, hw, Nat.not_le.mpr hc]
    constructor
    · simp [analyzeMeal, hstep]
    · simp [analyzeMeal, hstep, alistGet_alistSet_self]
  · intro ip now mime ai
    have hstep : anRateStep [] ip now = ([(ip, ⟨1, now⟩)], true) := by
      simp [anRateStep, alistGet, alistSet]
    constructor
    · simp [analyzeMeal, hstep]
    · simp [analyzeMeal, hstep, alistGet]

/-- C10 witness: with an in-window record at count 5, a call with an empty
image is rejected as invalid input yet the count moves to 6 (and equals the
bare rate-step table); from an empty table the rejected call still creates a
count-1 record. -/
theorem claim_C10_quota_consumed_before_validation_witness :
    (analyzeMeal [("9.9.9.9", ⟨5, 0⟩)] "9.9.9.9" 10 false "img" "image/jpeg"
      (.ok "j")).1 = (anRateStep [("9.9.9.9", ⟨5, 0⟩)] "9.9.9.9" 10).1 ∧
    ((analyzeMeal [("9.9.9.9", ⟨5, 0⟩)] "9.9.9.9" 10 true "" "image/jpeg"
        (.ok "j")).2 = .error .invalidInput ∧
      alistGet (analyzeMeal [("9.9.9.9", ⟨5, 0⟩)] "9.9.9.9" 10 true ""
        "image/jpeg" (.ok "j")).1 "9.9.9.9" = some ⟨6, 0⟩) ∧
    ((analyzeMeal [] "9.9.9.9" 10 true "" "image/jpeg" (.ok "j")).2 =
        .error .invalidInput ∧
      alistGet (analyzeMeal [] "9.9.9.9" 10 true "" "image/jpeg"
        (.ok "j")).1 "9.9.9.9" = some ⟨1, 10⟩) := by
  obtain ⟨h1, h2, h3⟩ := claim_C10_quota_consumed_before_validation
  exact ⟨h1 [("9.9.9.9", ⟨5, 0⟩)] "9.9.9.9" 10 false "img" "image/jpeg"
      (.ok "j"),
    h2 [("9.9.9.9", ⟨5, 0⟩)] "9.9.9.9" 10 "image/jpeg" (.ok "j") 5 0
      (by decide) (by decide) (by decide),
    h3 "9.9.9.9" 10 "image/jpeg" (.ok "j")⟩

end MaaltijdPlus
